import Mathlib

/-!
# DDSketch aggregator (`sdk/metric/aggregator/ddsketch`)

A shallow embedding of `ddsketch.go` and theorems about it.

* The Go file is a thin wrapper (`Aggregator`) around the sketch type `sdk.DDSketch`, which
  lives in a package whose source is not part of the repository sources at hand.  The sketch
  is therefore modelled from the specification (§3, §4.3, §4.4); every such definition says
  so in its doc comment.  The wrapper functions `New`, `Sum`, `Count`, `Max`, `Min`,
  `Quantile`, `toNumber`, `Collect`, `Update` and `Merge` are translated from the source.
* A `float64` is `NaN`, an infinity or a finite rational; the conversion of an integer to
  `float64` and the addition of two `float64` round to the nearest representable value, ties to
  even, with 53 significant bits, gradual underflow and overflow to infinity (IEEE 754
  binary64).  The two zeros are not distinguished.
* An `int64` is an integer; the conversion `int64(f)` truncates toward zero and is confined to
  the 64-bit range.
* Pointers are modelled by value.  `current` is never nil (every constructor and every method
  keeps it allocated), `checkpoint` is nil until the first `Collect`, so it is an `Option`.
  A method call through a nil pointer is the failure `nilPointerDereference`.
* The mutex only serialises `Update` and the swap in `Collect`; the embedding is sequential.
-/

/-! ## The Go type `float64` -/

/-- A `float64`: `NaN`, an infinity with its sign, or a finite value. -/
inductive Float64 where
  | NaN
  | inf (negative : Bool)
  | finite (x : ℚ)
  deriving DecidableEq, Repr

/-- Rounding of a rational to the nearest integer, ties to the even one. -/
def roundHalfEven (m : ℚ) : Int :=
  if m - (⌊m⌋ : ℚ) < 1 / 2 then ⌊m⌋
  else if 1 / 2 < m - (⌊m⌋ : ℚ) then ⌊m⌋ + 1
  else if ⌊m⌋ % 2 = 0 then ⌊m⌋ else ⌊m⌋ + 1

/-- Number of binary digits of `n` (0 for 0), with `fuel` at least that number. -/
def bitLength : Nat → Nat → Nat
  | 0, _ => 0
  | fuel + 1, n => if n = 0 then 0 else bitLength fuel (n / 2) + 1

/-- The binary exponent of a non-zero rational: the `e` with `2 ^ e ≤ |x| < 2 ^ (e + 1)`. -/
def binade (x : ℚ) : Int :=
  if (2 : ℚ) ^ ((bitLength x.num.natAbs x.num.natAbs : Int) - (bitLength x.den x.den : Int))
      ≤ |x|
  then (bitLength x.num.natAbs x.num.natAbs : Int) - (bitLength x.den x.den : Int)
  else (bitLength x.num.natAbs x.num.natAbs : Int) - (bitLength x.den x.den : Int) - 1

/-- The spacing of the `float64` values around `x`: 53 significant bits, and the spacing
`2 ^ (-1074)` of the subnormal values at the bottom. -/
def quantum (x : ℚ) : ℚ := 2 ^ (max (binade x) (-1022) - 52)

/-- The `float64` nearest to a rational, ties to even; magnitudes that round to `2 ^ 1024` or
more overflow to the infinity of their sign. -/
def roundFloat64 (x : ℚ) : Float64 :=
  if x = 0 then .finite 0
  else if (2 : ℚ) ^ (1024 : ℕ) ≤ |(roundHalfEven (x / quantum x) : ℚ) * quantum x| then
    .inf (decide (x < 0))
  else .finite ((roundHalfEven (x / quantum x) : ℚ) * quantum x)

/-- The Go operator `+` on `float64`. -/
def Float64.add (a b : Float64) : Float64 :=
  match a, b with
  | .NaN, _ => .NaN
  | _, .NaN => .NaN
  | .inf s, .inf t => if s = t then .inf s else .NaN
  | .inf s, .finite _ => .inf s
  | .finite _, .inf t => .inf t
  | .finite x, .finite y => roundFloat64 (x + y)

/-- Go conversion `int64(f)`: the fraction is discarded (truncation toward zero).  For NaN, the
infinities and values outside the `int64` range the Go specification leaves the result to the
implementation; the value taken here is the one of amd64, `-2 ^ 63`. -/
def truncToInt64 (f : Float64) : Int :=
  match f with
  | .finite x =>
    if -(2 : Int) ^ 63 ≤ (if 0 ≤ x then ⌊x⌋ else ⌈x⌉)
        ∧ (if 0 ≤ x then ⌊x⌋ else ⌈x⌉) < (2 : Int) ^ 63
    then (if 0 ≤ x then ⌊x⌋ else ⌈x⌉)
    else -(2 : Int) ^ 63
  | _ => -(2 : Int) ^ 63

/-! ## Numbers, descriptors and records (`api/core`, `sdk/export/metric`) -/

/-- Modelled from the spec: `core.NumberKind` (§3 NumericValue, kind ∈ {Integer, Float}); its
declaration is not among the sources, the two constructors are the ones `ddsketch.go` names. -/
inductive NumberKind where
  | Int64NumberKind
  | Float64NumberKind
  deriving DecidableEq, Repr

/-- Modelled from the spec: `core.Number` (§3, §9 "numeric tagged union"): "holds either an
int64 or a float64 bit pattern".  In Go the value is a raw 64-bit pattern read under a kind
supplied by the caller; here the reading is carried by the constructor.  An `int64` payload
lies in `[-2 ^ 63, 2 ^ 63)`. -/
inductive Number where
  | int64 (i : Int)
  | float64 (f : Float64)
  deriving DecidableEq, Repr

/-- The kind under which a number was constructed. -/
def Number.kind : Number → NumberKind
  | .int64 _ => .Int64NumberKind
  | .float64 _ => .Float64NumberKind

/-- The rational a number stands for, when it is finite. -/
def Number.exact : Number → Option ℚ
  | .int64 i => some (i : ℚ)
  | .float64 (.finite x) => some x
  | .float64 _ => none

/-- The constructor `core.NewInt64Number`. -/
def NewInt64Number (i : Int) : Number := .int64 i

/-- The constructor `core.NewFloat64Number`. -/
def NewFloat64Number (f : Float64) : Number := .float64 f

/-- Modelled from the spec: `Number.IsNegative(kind)` (§3, §4.1): sign test on the tagged
representation (`NaN < 0` is false).  The kind argument agrees with the constructor by the
precondition of §4.2. -/
def Number.IsNegative (n : Number) (_kind : NumberKind) : Bool :=
  match n with
  | .int64 i => decide (i < 0)
  | .float64 .NaN => false
  | .float64 (.inf negative) => negative
  | .float64 (.finite x) => decide (x < 0)

/-- Modelled from the spec: `Number.CoerceToFloat64(kind)` (§3 "lossy for very large integers",
§4.1 lossless "up to the platform's exact float64 integer range"): the Go conversion
`float64(i)` of an `int64`, which rounds to the nearest `float64`; a `float64` is returned as
it is. -/
def Number.CoerceToFloat64 (n : Number) (_kind : NumberKind) : Float64 :=
  match n with
  | .int64 i => roundFloat64 (i : ℚ)
  | .float64 f => f

/-- Modelled from the spec: `export.Descriptor` (§3): the numeric kind of the instrument and
whether it accepts negative values (`Alternate()` in the source, `allowNegative` in the spec). -/
structure Descriptor where
  numberKind : NumberKind
  alternate : Bool
  deriving DecidableEq, Repr

/-- Modelled from the spec: `export.Record` (§3): the correlation token handed to every call;
only its descriptor is read by the aggregator. -/
structure Record where
  descriptor : Descriptor
  deriving DecidableEq, Repr

/-! ## The sketch (`sdk.DDSketch`), modelled from the specification -/

/-- Modelled from the spec: `sdk.Config` (§3, §4.3): the relative accuracy `alpha`, the cap
`maxBins` on populated bins and the smallest indexable magnitude. -/
structure Config where
  alpha : ℚ
  maxBins : Int
  minIndexableValue : ℚ
  deriving DecidableEq, Repr

/-- Modelled from the spec: `sdk.NewDefaultConfig`; the spec fixes no default values, these are
the customary ones (1 % accuracy, 2048 bins, 1e-9). -/
def sdkNewDefaultConfig : Config :=
  { alpha := 1 / 100, maxBins := 2048, minIndexableValue := 1 / 1000000000 }

/-- Modelled from the spec: §4.3 "gamma = (1 + alpha) / (1 − alpha)". -/
def Config.gamma (cfg : Config) : ℚ := (1 + cfg.alpha) / (1 - cfg.alpha)

/-- Modelled from the spec: part of the bin index of §4.3; search upward from `n` for the
least exponent with `x ≤ g ^ n`, at most `fuel` steps. -/
def leastPowGE (g x : ℚ) : Nat → Nat → Nat
  | 0, n => n
  | fuel + 1, n => if x ≤ g ^ n then n else leastPowGE g x fuel (n + 1)

/-- Modelled from the spec: part of the bin index of §4.3; search upward from `n` for the
least exponent with `x < g ^ n`, at most `fuel` steps. -/
def leastPowGT (g x : ℚ) : Nat → Nat → Nat
  | 0, n => n
  | fuel + 1, n => if x < g ^ n then n else leastPowGT g x fuel (n + 1)

/-- Modelled from the spec: part of the bin index of §4.3; a number of steps after which both
searches have succeeded when `1 < g` (Bernoulli: `g ^ n ≥ 1 + n (g - 1)`). -/
def searchFuel (g x : ℚ) : Nat := ⌈(x - 1) / (g - 1)⌉.toNat + 1

/-- Modelled from the spec: §4.3 "for a positive value v, its bin index is
ceil(log(v) / log(gamma))", computed without logarithms as the least integer `i` with
`v ≤ gamma ^ i` (see `binIndex_eq_ceil_log`). -/
def binIndex (g v : ℚ) : Int :=
  if 1 < v then (leastPowGE g v (searchFuel g v) 0 : Int)
  else 1 - (leastPowGT g v⁻¹ (searchFuel g v⁻¹) 0 : Int)

/-- Modelled from the spec: §4.3 "the bin's representative value ...
v = bin_lower * (1 + gamma) / 2, where bin_lower = gamma^(index-1)". -/
def representative (g : ℚ) (index : Int) : ℚ := g ^ (index - 1) * (1 + g) / 2

/-- Modelled from the spec: §3 "an ordered mapping from integer bin index to an occurrence
count", kept as an association list in increasing index order. -/
abbrev Bins := List (Int × Nat)

/-- Modelled from the spec: §4.3 "increments the target bin's count", §4.4 "bin-wise count
addition": add `c` occurrences to bin `k`, creating the bin at its place in the order if
absent. -/
def addCount : Bins → Int → Nat → Bins
  | [], k, c => [(k, c)]
  | (k', c') :: rest, k, c =>
    if k < k' then (k, c) :: (k', c') :: rest
    else if k = k' then (k', c' + c) :: rest
    else (k', c') :: addCount rest k c

/-- Modelled from the spec: §4.3 "the two bins nearest the low-magnitude end (smallest bin
indices) are merged into one (counts summed, the surviving bin takes the higher of the two
indices)". -/
def collapseLowest : Bins → Bins
  | (_, c₁) :: (k₂, c₂) :: rest => (k₂, c₁ + c₂) :: rest
  | bins => bins

/-- Modelled from the spec: §4.3 bin-count capping on `Update`: "if an Update would create a
new bin and the sketch already holds maxBins populated bins", the two lowest bins are merged
"before the new bin is admitted". -/
def addKey (maxBins : Int) (bins : Bins) (k : Int) : Bins :=
  if k ∈ bins.map Prod.fst then addCount bins k 1
  else if maxBins ≤ (bins.length : Int) then addCount (collapseLowest bins) k 1
  else addCount bins k 1

/-- Modelled from the spec: §4.4 "repeated until the cap is satisfied": repeat the low-end
collapse, at most `fuel` times, while more than `maxBins` bins are populated. -/
def capBins (maxBins : Int) : Nat → Bins → Bins
  | 0, bins => bins
  | fuel + 1, bins =>
    if maxBins < (bins.length : Int) then capBins maxBins fuel (collapseLowest bins) else bins

/-- Modelled from the spec: §4.4 "bin-wise count addition for every bin present in either
operand ... If the combined bin set exceeds maxBins, the same low-end collapsing rule from
Update applies, repeated until the cap is satisfied". -/
def mergeBins (maxBins : Int) (a b : Bins) : Bins :=
  let combined := b.foldl (fun acc kc => addCount acc kc.1 kc.2) a
  capBins maxBins combined.length combined

/-- Modelled from the spec: `sdk.DDSketch` (§3 QuantileSketch, §4.3): the bins of the positive
and of the negative magnitudes, the count of the zero bin, the running `sum` and `count`, and
the fixed configuration.  The running sum is the `float64` that `Sum()` hands to `toNumber`
(`ddsketch.go`, line 60). -/
structure DDSketch where
  config : Config
  positive : Bins
  negative : Bins
  zeroCount : Nat
  sum : Float64
  count : Nat
  deriving DecidableEq, Repr

/-- Modelled from the spec: `sdk.NewDDSketch` (§4.2 "a fresh, empty accumulator of the same
configuration"). -/
def NewDDSketch (cfg : Config) : DDSketch :=
  { config := cfg, positive := [], negative := [], zeroCount := 0, sum := .finite 0,
    count := 0 }

/-- Modelled from the spec: `DDSketch.Add` (§4.3): values of magnitude below
`minIndexableValue` go to the zero bin, the others to the bin of their magnitude on the side
of their sign; "`Update` increments the target bin's count by 1 and adds the raw value to the
exact running `sum`; `count` increments by 1".  The addition to the sum is the `float64`
addition.  The spec does not place NaN and the infinities, which have no bin index; they are
counted in the zero bin. -/
def DDSketch.Add (s : DDSketch) (v : Float64) : DDSketch :=
  let g := s.config.gamma
  let t : DDSketch :=
    match v with
    | .finite x =>
      if s.config.minIndexableValue ≤ x then
        { s with positive := addKey s.config.maxBins s.positive (binIndex g x) }
      else if x ≤ -s.config.minIndexableValue then
        { s with negative := addKey s.config.maxBins s.negative (binIndex g (-x)) }
      else
        { s with zeroCount := s.zeroCount + 1 }
    | _ => { s with zeroCount := s.zeroCount + 1 }
  { t with sum := s.sum.add v, count := s.count + 1 }

/-- Modelled from the spec: `DDSketch.Sum` (§3 "a running exact sum"), a `float64` in Go. -/
def DDSketch.Sum (s : DDSketch) : Float64 := s.sum

/-- Modelled from the spec: `DDSketch.Count` (§3), an `int64` in Go. -/
def DDSketch.Count (s : DDSketch) : Int := (s.count : Int)

/-- Modelled from the spec: the bins as §4.3 walks them, in increasing order of the values they
stand for, each with its representative value: negative magnitudes from the largest down
(representative negated), the zero bin if populated (representative 0), positive magnitudes
from the smallest up. -/
def DDSketch.orderedBins (s : DDSketch) : List (ℚ × Nat) :=
  let g := s.config.gamma
  (s.negative.reverse.map fun kc => (-(representative g kc.1), kc.2))
    ++ (if s.zeroCount = 0 then [] else [((0 : ℚ), s.zeroCount)])
    ++ (s.positive.map fun kc => (representative g kc.1, kc.2))

/-- Modelled from the spec: §4.3 "walk bins in increasing index order accumulating counts until
the cumulative count reaches" the target rank. -/
def valueAtRank : List (ℚ × Nat) → Nat → Option ℚ
  | [], _ => none
  | (v, c) :: rest, r => if r ≤ c then some v else valueAtRank rest (r - c)

/-- Modelled from the spec: the estimate as a `float64`: a missing bin is the "NaN
intermediate" of §4.3, a representative value is rounded to the nearest `float64`. -/
def Float64.ofOption : Option ℚ → Float64
  | none => .NaN
  | some x => roundFloat64 x

/-- Modelled from the spec: `DDSketch.Quantile` (§4.3): NaN "if count == 0, if q is outside
[0,1], or if the computed target rank maps outside the sketch's populated domain"; q = 0 and
q = 1 read "the lowest/highest populated bin directly"; otherwise the walk up to rank
`ceil(q · count)`. -/
def DDSketch.Quantile (s : DDSketch) (q : ℚ) : Float64 :=
  if s.count = 0 ∨ q < 0 ∨ 1 < q then .NaN
  else if q = 0 then Float64.ofOption (s.orderedBins.head?.map Prod.fst)
  else if q = 1 then Float64.ofOption (s.orderedBins.getLast?.map Prod.fst)
  else Float64.ofOption (valueAtRank s.orderedBins ⌈q * (s.count : ℚ)⌉.toNat)

/-- Modelled from the spec: `DDSketch.Merge` (§4.4): "bin-wise count addition ..., `sum` and
`count` added exactly"; the addition of the sums is the `float64` addition. -/
def DDSketch.Merge (s o : DDSketch) : DDSketch :=
  { config := s.config
    positive := mergeBins s.config.maxBins s.positive o.positive
    negative := mergeBins s.config.maxBins s.negative o.negative
    zeroCount := s.zeroCount + o.zeroCount
    sum := s.sum.add o.sum
    count := s.count + o.count }

/-! ## The aggregator (`ddsketch.go`) -/

/-- Ways a call can end other than by a normal return with a value: the run-time panic of a
method call through the nil `checkpoint`, and the error value
`aggregator.ErrInvalidQuantile`. -/
inductive Failure where
  | nilPointerDereference
  | ErrInvalidQuantile
  deriving DecidableEq, Repr

/-- The struct `Aggregator` (the mutex is not modelled). -/
structure Aggregator where
  cfg : Config
  kind : NumberKind
  current : DDSketch
  checkpoint : Option DDSketch
  deriving DecidableEq, Repr

/-- The constructor `New`. -/
def New (cfg : Config) (desc : Descriptor) : Aggregator :=
  { cfg := cfg, kind := desc.numberKind, current := NewDDSketch cfg, checkpoint := none }

/-- The function `NewDefaultConfig`. -/
def NewDefaultConfig : Config := sdkNewDefaultConfig

/-- The method `toNumber`. -/
def Aggregator.toNumber (c : Aggregator) (f : Float64) : Number :=
  if c.kind = .Float64NumberKind then NewFloat64Number f
  else NewInt64Number (truncToInt64 f)

/-- The method `Sum`. -/
def Aggregator.Sum (c : Aggregator) : Except Failure Number :=
  match c.checkpoint with
  | none => .error .nilPointerDereference
  | some s => .ok (c.toNumber s.Sum)

/-- The method `Count`. -/
def Aggregator.Count (c : Aggregator) : Except Failure Int :=
  match c.checkpoint with
  | none => .error .nilPointerDereference
  | some s => .ok s.Count

/-- The method `Quantile`; the match on `NaN` is the test `math.IsNaN(f)`, and the Go pair
`(core.Number(0), ErrInvalidQuantile)` is the failure `ErrInvalidQuantile`. -/
def Aggregator.Quantile (c : Aggregator) (q : ℚ) : Except Failure Number :=
  match c.checkpoint with
  | none => .error .nilPointerDereference
  | some s =>
    let f := s.Quantile q
    match f with
    | .NaN => .error .ErrInvalidQuantile
    | _ => .ok (c.toNumber f)

/-- The method `Max`. -/
def Aggregator.Max (c : Aggregator) : Except Failure Number := c.Quantile 1

/-- The method `Min`. -/
def Aggregator.Min (c : Aggregator) : Except Failure Number := c.Quantile 0

/-- The calls `exp.Export(ctx, rec, c)` received by an `export.Batcher`, oldest first, each
with the aggregator as it was when handed over. -/
abbrev Batcher := List (Record × Aggregator)

/-- The method `Collect`: it has no result; its effects are the new aggregator state and the
call to the batcher, if any. -/
def Aggregator.Collect (c : Aggregator) (rec : Record) (exp : Batcher) : Aggregator × Batcher :=
  let replace := NewDDSketch c.cfg
  let c' : Aggregator := { c with checkpoint := some c.current, current := replace }
  match c'.checkpoint with
  | none => (c', exp)
  | some s => if s.Count ≠ 0 then (c', exp ++ [(rec, c')]) else (c', exp)

/-- The method `Update`: it has no result; its only effect is the new aggregator state. -/
def Aggregator.Update (c : Aggregator) (number : Number) (rec : Record) : Aggregator :=
  let desc := rec.descriptor
  let kind := desc.numberKind
  if !desc.alternate && number.IsNegative kind then c
  else { c with current := c.current.Add (number.CoerceToFloat64 kind) }

/-- A value of interface type `export.Aggregator` as seen by the type assertion
`oa.(*Aggregator)`: a non-nil `*Aggregator`, or anything else (another aggregator kind, nil). -/
inductive ExportAggregator where
  | ddsketch (o : Aggregator)
  | other
  deriving DecidableEq, Repr

/-- The method `Merge`: it has no result; a normal return carries the new aggregator state. -/
def Aggregator.Merge (c : Aggregator) (oa : ExportAggregator) (_d : Descriptor) :
    Except Failure Aggregator :=
  match oa with
  | .other => .ok c
  | .ddsketch o =>
    match c.checkpoint, o.checkpoint with
    | some s, some t => .ok { c with checkpoint := some (s.Merge t) }
    | _, _ => .error .nilPointerDereference

/-- A run of `Update` calls, in order. -/
def Aggregator.updates (c : Aggregator) (us : List (Number × Record)) : Aggregator :=
  us.foldl (fun a u => a.Update u.1 u.2) c

/-- Whether `Update` lets a measurement through to the sketch. -/
def accepted (u : Number × Record) : Bool :=
  !(!u.2.descriptor.alternate && u.1.IsNegative u.2.descriptor.numberKind)

deriving instance DecidableEq for Except

/-- The values that reach the sketch in a run of `Update` calls, in order. -/
def acceptedValues (us : List (Number × Record)) : List Float64 :=
  (us.filter accepted).map fun u => u.1.CoerceToFloat64 u.2.descriptor.numberKind

/-- A run of `Add` calls on a sketch, in order. -/
def DDSketch.addAll (s : DDSketch) (vs : List Float64) : DDSketch :=
  vs.foldl DDSketch.Add s

/-- Every value of the list, and every running sum from `a` on, is a `float64` as it stands:
no conversion and no addition rounds. -/
def sumsExactlyFrom (a : ℚ) : List ℚ → Bool
  | [] => true
  | v :: vs =>
    decide (roundFloat64 v = .finite v) && decide (roundFloat64 (a + v) = .finite (a + v))
      && sumsExactlyFrom (a + v) vs

/-- Whether an integer fits the type `int64`. -/
def inInt64Range (x : ℚ) : Prop := -(2 : ℚ) ^ 63 ≤ x ∧ x < (2 : ℚ) ^ 63

/-- A `float64` that is not a finite fraction: the sums of an integer instrument are such. -/
def Float64.IsIntegral (f : Float64) : Prop := ∀ x : ℚ, f = .finite x → ∃ z : Int, x = (z : ℚ)

/-! ## Rounding lemmas -/

/-- Rounding to the nearest integer does not change an integer. -/
theorem roundHalfEven_intCast (z : Int) : roundHalfEven (z : ℚ) = z := by
  unfold roundHalfEven
  simp

/-- Rounding an integer to a multiple of a power of two gives an integer. -/
theorem roundHalfEven_mul_zpow_int (z k : Int) :
    ∃ w : Int, (roundHalfEven ((z : ℚ) / 2 ^ k) : ℚ) * 2 ^ k = (w : ℚ) := by
  rcases le_or_lt 0 k with hk | hk
  · obtain ⟨n, rfl⟩ := Int.eq_ofNat_of_zero_le hk
    refine ⟨roundHalfEven ((z : ℚ) / 2 ^ (n : ℤ)) * 2 ^ n, ?_⟩
    rw [zpow_natCast]
    push_cast
    rfl
  · obtain ⟨n, hn⟩ := Int.exists_eq_neg_ofNat hk.le
    subst hn
    refine ⟨z, ?_⟩
    rw [zpow_neg, zpow_natCast, div_inv_eq_mul]
    have h : (z : ℚ) * 2 ^ n = ((z * 2 ^ n : Int) : ℚ) := by push_cast; rfl
    rw [h, roundHalfEven_intCast]
    push_cast
    field_simp

/-- The `float64` nearest to an integer is an integer (or an infinity). -/
theorem roundFloat64_isIntegral (z : Int) : (roundFloat64 (z : ℚ)).IsIntegral := by
  intro x hx
  unfold roundFloat64 at hx
  split_ifs at hx with h0 h1
  · exact ⟨0, by simpa using (Float64.finite.inj hx).symm⟩
  · obtain ⟨w, hw⟩ := roundHalfEven_mul_zpow_int z (max (binade (z : ℚ)) (-1022) - 52)
    refine ⟨w, ?_⟩
    rw [← hw]
    exact (Float64.finite.inj hx).symm

/-- The `float64` sum of two integers is an integer (or not finite). -/
theorem Float64.add_isIntegral (a b : Float64) (ha : a.IsIntegral) (hb : b.IsIntegral) :
    (a.add b).IsIntegral := by
  cases a with
  | NaN => intro x hx; simp [Float64.add] at hx
  | inf s =>
    cases b with
    | NaN => intro x hx; simp [Float64.add] at hx
    | inf t =>
      intro x hx
      simp only [Float64.add] at hx
      split_ifs at hx
    | finite y => intro x hx; simp [Float64.add] at hx
  | finite x' =>
    cases b with
    | NaN => intro x hx; simp [Float64.add] at hx
    | inf t => intro x hx; simp [Float64.add] at hx
    | finite y =>
      obtain ⟨z1, h1⟩ := ha x' rfl
      obtain ⟨z2, h2⟩ := hb y rfl
      have : Float64.add (.finite x') (.finite y) = roundFloat64 ((z1 + z2 : Int) : ℚ) := by
        simp only [Float64.add, h1, h2]
        push_cast
        rfl
      rw [this]
      exact roundFloat64_isIntegral _

/-- The conversion `int64(f)` of an integer within the `int64` range is that integer. -/
theorem truncToInt64_intCast (z : Int) (h : inInt64Range (z : ℚ)) :
    truncToInt64 (.finite (z : ℚ)) = z := by
  obtain ⟨h1, h2⟩ := h
  have h1' : -(2 : Int) ^ 63 ≤ z := by exact_mod_cast h1
  have h2' : z < (2 : Int) ^ 63 := by exact_mod_cast h2
  unfold truncToInt64
  simp only [Int.floor_intCast, Int.ceil_intCast, ite_self]
  rw [if_pos ⟨h1', h2'⟩]

/-! ## Frame and bookkeeping lemmas -/

/-- An empty run of updates changes nothing. -/
theorem Aggregator.updates_nil (c : Aggregator) : c.updates [] = c := rfl

/-- A run of updates is its first update followed by the rest. -/
theorem Aggregator.updates_cons (c : Aggregator) (u : Number × Record)
    (us : List (Number × Record)) :
    c.updates (u :: us) = (c.Update u.1 u.2).updates us := rfl

/-- A rejected update leaves the aggregator as it was. -/
theorem Aggregator.Update_of_rejected (c : Aggregator) (u : Number × Record)
    (h : accepted u = false) : c.Update u.1 u.2 = c := by
  unfold accepted at h
  simp only [Bool.not_eq_false'] at h
  simp [Aggregator.Update, h]

/-- An accepted update adds the coerced value to `current` and changes nothing else. -/
theorem Aggregator.Update_of_accepted (c : Aggregator) (u : Number × Record)
    (h : accepted u = true) :
    c.Update u.1 u.2 =
      { c with current := c.current.Add (u.1.CoerceToFloat64 u.2.descriptor.numberKind) } := by
  unfold accepted at h
  simp only [Bool.not_eq_true'] at h
  simp [Aggregator.Update, h]

/-- One update keeps configuration, kind and checkpoint. -/
theorem Aggregator.Update_frame (c : Aggregator) (n : Number) (r : Record) :
    (c.Update n r).cfg = c.cfg ∧ (c.Update n r).kind = c.kind ∧
      (c.Update n r).checkpoint = c.checkpoint := by
  unfold Aggregator.Update
  dsimp only
  split_ifs <;> simp

/-- A run of updates keeps configuration, kind and checkpoint. -/
theorem Aggregator.updates_frame (c : Aggregator) (us : List (Number × Record)) :
    (c.updates us).cfg = c.cfg ∧ (c.updates us).kind = c.kind ∧
      (c.updates us).checkpoint = c.checkpoint := by
  induction us generalizing c with
  | nil => simp [Aggregator.updates_nil]
  | cons u us ih =>
    rw [Aggregator.updates_cons]
    obtain ⟨h1, h2, h3⟩ := ih (c.Update u.1 u.2)
    obtain ⟨g1, g2, g3⟩ := c.Update_frame u.1 u.2
    exact ⟨h1.trans g1, h2.trans g2, h3.trans g3⟩

/-- After a run of updates `current` has received exactly the accepted values, in order. -/
theorem Aggregator.updates_current (c : Aggregator) (us : List (Number × Record)) :
    (c.updates us).current = c.current.addAll (acceptedValues us) := by
  induction us generalizing c with
  | nil => rfl
  | cons u us ih =>
    rw [Aggregator.updates_cons, ih]
    cases h : accepted u with
    | false =>
      rw [Aggregator.Update_of_rejected c u h]
      simp [acceptedValues, List.filter_cons, h]
    | true =>
      rw [Aggregator.Update_of_accepted c u h]
      simp [acceptedValues, List.filter_cons, h, DDSketch.addAll]

/-- One `Add` adds the value to the running sum, as `float64`. -/
theorem DDSketch.Add_sum (s : DDSketch) (v : Float64) : (s.Add v).sum = s.sum.add v := by
  unfold DDSketch.Add
  simp only []

/-- One `Add` increments the running count. -/
theorem DDSketch.Add_count (s : DDSketch) (v : Float64) : (s.Add v).count = s.count + 1 := by
  unfold DDSketch.Add
  simp only []

/-- A run of `Add` adds the number of values to the running count. -/
theorem DDSketch.addAll_count (s : DDSketch) (vs : List Float64) :
    (s.addAll vs).count = s.count + vs.length := by
  induction vs generalizing s with
  | nil => simp [DDSketch.addAll]
  | cons v vs ih =>
    have h : s.addAll (v :: vs) = (s.Add v).addAll vs := rfl
    rw [h, ih, DDSketch.Add_count, List.length_cons]
    omega

/-- A run of `Add` on values that are `float64` as they stand, with running sums that are so
too, ends with their exact sum. -/
theorem DDSketch.addAll_sum_exact (s : DDSketch) (a : ℚ) (vs : List ℚ)
    (hs : s.sum = .finite a) (h : sumsExactlyFrom a vs = true) :
    (s.addAll (vs.map Float64.finite)).sum = .finite (a + vs.sum) := by
  induction vs generalizing s a with
  | nil => simpa [DDSketch.addAll] using hs
  | cons v vs ih =>
    simp only [sumsExactlyFrom, Bool.and_eq_true, decide_eq_true_eq] at h
    obtain ⟨⟨_, h2⟩, h3⟩ := h
    have hstep : s.addAll ((v :: vs).map Float64.finite)
        = (s.Add (.finite v)).addAll (vs.map Float64.finite) := rfl
    have hsum : (s.Add (.finite v)).sum = .finite (a + v) := by
      rw [DDSketch.Add_sum, hs]
      simpa [Float64.add] using h2
    rw [hstep, ih (s.Add (.finite v)) (a + v) hsum h3, List.sum_cons, add_assoc]

/-- Every value of a list that sums exactly is a `float64` as it stands. -/
theorem sumsExactlyFrom_mem (a : ℚ) (vs : List ℚ) (h : sumsExactlyFrom a vs = true) :
    ∀ v ∈ vs, roundFloat64 v = .finite v := by
  induction vs generalizing a with
  | nil => simp
  | cons w vs ih =>
    simp only [sumsExactlyFrom, Bool.and_eq_true, decide_eq_true_eq] at h
    obtain ⟨⟨h1, _⟩, h3⟩ := h
    intro v hv
    rcases List.mem_cons.mp hv with rfl | hv
    · exact h1
    · exact ih _ h3 v hv

/-- Numbers that stand for `float64` values as they are coerce to these values. -/
theorem map_CoerceToFloat64_of_exact (l : List (Number × Record)) (vs : List ℚ)
    (hex : l.map (fun u => u.1.exact) = vs.map some)
    (hrep : ∀ v ∈ vs, roundFloat64 v = .finite v) :
    l.map (fun u => u.1.CoerceToFloat64 u.2.descriptor.numberKind) = vs.map Float64.finite := by
  induction l generalizing vs with
  | nil =>
    cases vs with
    | nil => rfl
    | cons v vs => simp at hex
  | cons u l ih =>
    cases vs with
    | nil => simp at hex
    | cons v vs =>
      simp only [List.map_cons, List.cons.injEq] at hex ⊢
      obtain ⟨h1, h2⟩ := hex
      refine ⟨?_, ih vs h2 (fun w hw => hrep w (List.mem_cons_of_mem _ hw))⟩
      obtain ⟨n, r⟩ := u
      cases n with
      | int64 i =>
        simp only [Number.exact, Option.some.injEq] at h1
        simp only [Number.CoerceToFloat64, h1]
        exact hrep v (List.mem_cons_self _ _)
      | float64 f =>
        cases f with
        | NaN => simp [Number.exact] at h1
        | inf s => simp [Number.exact] at h1
        | finite x =>
          simp only [Number.exact, Option.some.injEq] at h1
          simp [Number.CoerceToFloat64, h1]

/-- The numbers of an integer instrument stand for integers, so does their sum. -/
theorem sum_int_of_exact (l : List (Number × Record)) (vs : List ℚ)
    (hex : l.map (fun u => u.1.exact) = vs.map some)
    (hkind : ∀ u ∈ l, u.1.kind = NumberKind.Int64NumberKind) :
    ∃ z : Int, vs.sum = (z : ℚ) := by
  induction l generalizing vs with
  | nil =>
    cases vs with
    | nil => exact ⟨0, by simp⟩
    | cons v vs => simp at hex
  | cons u l ih =>
    cases vs with
    | nil => simp at hex
    | cons v vs =>
      simp only [List.map_cons, List.cons.injEq] at hex
      obtain ⟨h1, h2⟩ := hex
      obtain ⟨z, hz⟩ := ih vs h2 (fun w hw => hkind w (List.mem_cons_of_mem _ hw))
      have hu := hkind u (List.mem_cons_self _ _)
      obtain ⟨n, r⟩ := u
      cases n with
      | float64 f => simp [Number.kind] at hu
      | int64 i =>
        simp only [Number.exact, Option.some.injEq] at h1
        refine ⟨i + z, ?_⟩
        rw [List.sum_cons, hz, ← h1]
        push_cast
        rfl

/-- The running sum of an integer instrument is an integer (or not finite). -/
theorem DDSketch.addAll_sum_isIntegral (s : DDSketch) (vs : List Float64)
    (hs : s.sum.IsIntegral) (hvs : ∀ v ∈ vs, v.IsIntegral) : (s.addAll vs).sum.IsIntegral := by
  induction vs generalizing s with
  | nil => exact hs
  | cons v vs ih =>
    have hstep : s.addAll (v :: vs) = (s.Add v).addAll vs := rfl
    rw [hstep]
    apply ih
    · rw [DDSketch.Add_sum]
      exact Float64.add_isIntegral _ _ hs (hvs v (List.mem_cons_self _ _))
    · exact fun w hw => hvs w (List.mem_cons_of_mem _ hw)

/-- The values an integer instrument hands to the sketch are integers. -/
theorem acceptedValues_isIntegral (us : List (Number × Record))
    (hkind : ∀ u ∈ us, u.1.kind = NumberKind.Int64NumberKind) :
    ∀ v ∈ acceptedValues us, v.IsIntegral := by
  intro v hv
  simp only [acceptedValues, List.mem_map, List.mem_filter] at hv
  obtain ⟨u, ⟨hu, _⟩, rfl⟩ := hv
  have hk := hkind u hu
  obtain ⟨n, r⟩ := u
  cases n with
  | float64 f => simp [Number.kind] at hk
  | int64 i => exact roundFloat64_isIntegral i

/-- The aggregator state after `Collect`, on both branches of the export guard. -/
theorem Aggregator.Collect_fst (c : Aggregator) (rec : Record) (exp : Batcher) :
    (c.Collect rec exp).1 =
      { c with checkpoint := some c.current, current := NewDDSketch c.cfg } := by
  unfold Aggregator.Collect
  dsimp only
  split_ifs <;> rfl

/-- The number `toNumber` builds has the aggregator's kind. -/
theorem Aggregator.toNumber_kind (c : Aggregator) (f : Float64) :
    (c.toNumber f).kind = c.kind := by
  unfold Aggregator.toNumber
  split_ifs with h
  · simp [NewFloat64Number, Number.kind, h]
  · cases hk : c.kind with
    | Int64NumberKind => simp [NewInt64Number, Number.kind]
    | Float64NumberKind => exact absurd hk h

/-- The number `toNumber` builds from a finite `float64` stands for that value, provided that
for an integer aggregator the value is an integer within the `int64` range. -/
theorem Aggregator.toNumber_exact (c : Aggregator) (x : ℚ)
    (h : c.kind = NumberKind.Int64NumberKind → (∃ z : Int, x = (z : ℚ)) ∧ inInt64Range x) :
    (c.toNumber (.finite x)).exact = some x := by
  unfold Aggregator.toNumber
  split_ifs with hk
  · simp [NewFloat64Number, Number.exact]
  · have hi : c.kind = NumberKind.Int64NumberKind := by
      cases hc : c.kind with
      | Int64NumberKind => rfl
      | Float64NumberKind => exact absurd hc hk
    obtain ⟨⟨z, rfl⟩, hr⟩ := h hi
    simp [NewInt64Number, Number.exact, truncToInt64_intCast z hr]

/-- The checkpoint taken by `Collect` after a run of updates on a new aggregator. -/
theorem checkpoint_after_run (cfg : Config) (desc : Descriptor) (us : List (Number × Record))
    (rec : Record) (exp : Batcher) :
    (((New cfg desc).updates us).Collect rec exp).1 =
      { cfg := cfg, kind := desc.numberKind, current := NewDDSketch cfg,
        checkpoint := some ((NewDDSketch cfg).addAll (acceptedValues us)) } := by
  rw [Aggregator.Collect_fst]
  obtain ⟨h1, h2, _⟩ := (New cfg desc).updates_frame us
  have h4 := (New cfg desc).updates_current us
  rw [h1, h4]
  simp only [New] at h2 ⊢
  rw [h2]

/-! ## The bin index -/

/-- When the search has enough fuel it returns the least exponent from `n` on with
`x ≤ g ^ n`. -/
theorem leastPowGE_spec (g x : ℚ) (fuel n : Nat) (h : x ≤ g ^ (n + fuel)) :
    x ≤ g ^ (leastPowGE g x fuel n) ∧ n ≤ leastPowGE g x fuel n ∧
      ∀ j, n ≤ j → j < leastPowGE g x fuel n → g ^ j < x := by
  induction fuel generalizing n with
  | zero =>
    refine ⟨by simpa [leastPowGE] using h, le_refl _, ?_⟩
    intro j h1 h2
    simp only [leastPowGE] at h2
    omega
  | succ fuel ih =>
    unfold leastPowGE
    split_ifs with hx
    · exact ⟨hx, le_refl _, fun j h1 h2 => by omega⟩
    · have h' : x ≤ g ^ (n + 1 + fuel) := by
        have : n + 1 + fuel = n + (fuel + 1) := by omega
        rw [this]; exact h
      obtain ⟨h1, h2, h3⟩ := ih (n + 1) h'
      refine ⟨h1, by omega, ?_⟩
      intro j hj1 hj2
      rcases Nat.eq_or_lt_of_le hj1 with rfl | hlt
      · exact not_le.mp hx
      · exact h3 j hlt hj2

/-- When the search has enough fuel it returns the least exponent from `n` on with
`x < g ^ n`. -/
theorem leastPowGT_spec (g x : ℚ) (fuel n : Nat) (h : x < g ^ (n + fuel)) :
    x < g ^ (leastPowGT g x fuel n) ∧ n ≤ leastPowGT g x fuel n ∧
      ∀ j, n ≤ j → j < leastPowGT g x fuel n → g ^ j ≤ x := by
  induction fuel generalizing n with
  | zero =>
    refine ⟨by simpa [leastPowGT] using h, le_refl _, ?_⟩
    intro j h1 h2
    simp only [leastPowGT] at h2
    omega
  | succ fuel ih =>
    unfold leastPowGT
    split_ifs with hx
    · exact ⟨hx, le_refl _, fun j h1 h2 => by omega⟩
    · have h' : x < g ^ (n + 1 + fuel) := by
        have : n + 1 + fuel = n + (fuel + 1) := by omega
        rw [this]; exact h
      obtain ⟨h1, h2, h3⟩ := ih (n + 1) h'
      refine ⟨h1, by omega, ?_⟩
      intro j hj1 hj2
      rcases Nat.eq_or_lt_of_le hj1 with rfl | hlt
      · exact not_lt.mp hx
      · exact h3 j hlt hj2

/-- The fuel is enough: `g ^ searchFuel g x` exceeds `x` when `1 < g`. -/
theorem lt_pow_searchFuel (g x : ℚ) (hg : 1 < g) : x < g ^ searchFuel g x := by
  have ha : 0 < g - 1 := by linarith
  have h1 : (x - 1) / (g - 1) < (searchFuel g x : ℚ) := by
    unfold searchFuel
    have h2 : (x - 1) / (g - 1) ≤ (⌈(x - 1) / (g - 1)⌉ : ℚ) := Int.le_ceil _
    have h3 : ((⌈(x - 1) / (g - 1)⌉ : ℤ) : ℚ) ≤ ((⌈(x - 1) / (g - 1)⌉.toNat : ℤ) : ℚ) := by
      exact_mod_cast Int.self_le_toNat _
    push_cast
    have h4 : ((⌈(x - 1) / (g - 1)⌉.toNat : ℤ) : ℚ) = ((⌈(x - 1) / (g - 1)⌉.toNat : ℕ) : ℚ) := by
      norm_cast
    linarith
  have h5 : x - 1 < (searchFuel g x : ℚ) * (g - 1) := (div_lt_iff₀ ha).mp h1
  have h6 := one_add_mul_le_pow (show (-2 : ℚ) ≤ g - 1 by linarith) (searchFuel g x)
  have h7 : (1 : ℚ) + (g - 1) = g := by ring
  rw [h7] at h6
  linarith

/-- The index of a positive value: `g ^ (i - 1) < v ≤ g ^ i`. -/
theorem binIndex_spec (g v : ℚ) (hg : 1 < g) (hv : 0 < v) :
    g ^ (binIndex g v - 1) < v ∧ v ≤ g ^ (binIndex g v) := by
  have hg0 : 0 < g := by linarith
  unfold binIndex
  split_ifs with h1
  · obtain ⟨h2, _, h3⟩ := leastPowGE_spec g v (searchFuel g v) 0
      (by simpa using (lt_pow_searchFuel g v hg).le)
    set r := leastPowGE g v (searchFuel g v) 0 with hr
    have hr1 : 1 ≤ r := by
      by_contra hcon
      have : r = 0 := by omega
      rw [this] at h2
      simp at h2
      linarith
    have h4 := h3 (r - 1) (Nat.zero_le _) (by omega)
    constructor
    · have : ((r : ℤ) - 1) = ((r - 1 : ℕ) : ℤ) := by omega
      rw [this, zpow_natCast]
      exact h4
    · rw [zpow_natCast]; exact h2
  · have hv1 : v ≤ 1 := not_lt.mp h1
    have hx1 : 1 ≤ v⁻¹ := (one_le_inv₀ hv).mpr hv1
    obtain ⟨h2, _, h3⟩ := leastPowGT_spec g v⁻¹ (searchFuel g v⁻¹) 0
      (by simpa using lt_pow_searchFuel g v⁻¹ hg)
    set m := leastPowGT g v⁻¹ (searchFuel g v⁻¹) 0 with hm
    have hm1 : 1 ≤ m := by
      by_contra hcon
      have : m = 0 := by omega
      rw [this] at h2
      simp at h2
      linarith
    have h4 := h3 (m - 1) (Nat.zero_le _) (by omega)
    constructor
    · have : (1 - (m : ℤ) - 1) = -((m : ℕ) : ℤ) := by omega
      rw [this, zpow_neg, zpow_natCast]
      have hpos : 0 < g ^ m := pow_pos hg0 m
      rw [inv_lt_comm₀ hpos hv]
      exact h2
    · have : (1 - (m : ℤ)) = -((m - 1 : ℕ) : ℤ) := by omega
      rw [this, zpow_neg, zpow_natCast]
      have hpos : 0 < g ^ (m - 1) := pow_pos hg0 _
      rw [le_inv_comm₀ hv hpos]
      exact h4

/-- The computed index is the one of the spec, `ceil(log(v) / log(gamma))`. -/
theorem binIndex_eq_ceil_log (g v : ℚ) (hg : 1 < g) (hv : 0 < v) :
    binIndex g v = ⌈Real.log (v : ℝ) / Real.log (g : ℝ)⌉ := by
  obtain ⟨b1, b2⟩ := binIndex_spec g v hg hv
  have hgR : (1 : ℝ) < (g : ℝ) := by exact_mod_cast hg
  have hvR : (0 : ℝ) < (v : ℝ) := by exact_mod_cast hv
  have hlg : 0 < Real.log (g : ℝ) := Real.log_pos hgR
  have hg0 : (0 : ℝ) < (g : ℝ) := by linarith
  have c1 : (g : ℝ) ^ (binIndex g v - 1) < (v : ℝ) := by exact_mod_cast b1
  have c2 : (v : ℝ) ≤ (g : ℝ) ^ (binIndex g v) := by exact_mod_cast b2
  symm
  rw [Int.ceil_eq_iff]
  constructor
  · rw [lt_div_iff₀ hlg]
    have := Real.log_lt_log (zpow_pos hg0 _) c1
    rw [Real.log_zpow] at this
    push_cast at this
    exact this
  · rw [div_le_iff₀ hlg]
    have := Real.log_le_log hvR c2
    rw [Real.log_zpow] at this
    exact this

/-! ## The claims -/

/-- C1 (amended): on a freshly constructed aggregator, after any finite run of `Update` calls
and one `Collect`, `Count()` is the number of accepted updates, for every configuration, hence
whether or not bins were collapsed; and `Sum()` is a number of the instrument's kind standing
for the exact sum of the accepted values whenever these values (each of the instrument's kind)
and their running sums, in update order, are `float64` values as they stand, and for an
integer instrument the sum fits `int64`. -/
theorem C1_sum_count_exact (cfg : Config) (desc : Descriptor) (us : List (Number × Record))
    (rec : Record) (exp : Batcher) :
    (((New cfg desc).updates us).Collect rec exp).1.Count
        = Except.ok ((us.filter accepted).length : Int) ∧
    ∀ vs : List ℚ,
      (∀ u ∈ us, u.1.kind = desc.numberKind) →
      (us.filter accepted).map (fun u => u.1.exact) = vs.map some →
      sumsExactlyFrom 0 vs = true →
      (desc.numberKind = NumberKind.Int64NumberKind → inInt64Range vs.sum) →
      ∃ n : Number, (((New cfg desc).updates us).Collect rec exp).1.Sum = Except.ok n ∧
        n.kind = desc.numberKind ∧ n.exact = some vs.sum := by
  rw [checkpoint_after_run]
  constructor
  · simp [Aggregator.Count, DDSketch.Count, DDSketch.addAll_count, NewDDSketch, acceptedValues]
  · intro vs hkind hex hsums hrange
    have hvals : acceptedValues us = vs.map Float64.finite :=
      map_CoerceToFloat64_of_exact _ vs hex (sumsExactlyFrom_mem 0 vs hsums)
    have hsum : ((NewDDSketch cfg).addAll (acceptedValues us)).Sum = .finite vs.sum := by
      rw [hvals, DDSketch.Sum, DDSketch.addAll_sum_exact _ 0 vs rfl hsums, zero_add]
    refine ⟨_, rfl, ?_, ?_⟩
    · rw [Aggregator.toNumber_kind]
    · rw [hsum]
      apply Aggregator.toNumber_exact
      intro hk
      exact ⟨sum_int_of_exact _ vs hex
        (fun u hu => (hkind u (List.mem_filter.mp hu).1).trans hk), hrange hk⟩

/-- Witness of C1: a float instrument without negative values receives 1, -1 (rejected) and
5/2; two updates are counted and the sum is 7/2. -/
theorem C1_sum_count_exact_witness :
    (((New NewDefaultConfig ⟨NumberKind.Float64NumberKind, false⟩).updates
        [(Number.float64 (Float64.finite 1), ⟨⟨NumberKind.Float64NumberKind, false⟩⟩),
         (Number.float64 (Float64.finite (-1)), ⟨⟨NumberKind.Float64NumberKind, false⟩⟩),
         (Number.float64 (Float64.finite (5 / 2)),
           ⟨⟨NumberKind.Float64NumberKind, false⟩⟩)]).Collect
        ⟨⟨NumberKind.Float64NumberKind, false⟩⟩ []).1.Count = Except.ok 2 ∧
    ∃ n : Number,
      (((New NewDefaultConfig ⟨NumberKind.Float64NumberKind, false⟩).updates
        [(Number.float64 (Float64.finite 1), ⟨⟨NumberKind.Float64NumberKind, false⟩⟩),
         (Number.float64 (Float64.finite (-1)), ⟨⟨NumberKind.Float64NumberKind, false⟩⟩),
         (Number.float64 (Float64.finite (5 / 2)),
           ⟨⟨NumberKind.Float64NumberKind, false⟩⟩)]).Collect
        ⟨⟨NumberKind.Float64NumberKind, false⟩⟩ []).1.Sum = Except.ok n ∧
      n.kind = NumberKind.Float64NumberKind ∧ n.exact = some ([1, 5 / 2] : List ℚ).sum :=
  ⟨(C1_sum_count_exact NewDefaultConfig ⟨NumberKind.Float64NumberKind, false⟩
      [(Number.float64 (Float64.finite 1), ⟨⟨NumberKind.Float64NumberKind, false⟩⟩),
       (Number.float64 (Float64.finite (-1)), ⟨⟨NumberKind.Float64NumberKind, false⟩⟩),
       (Number.float64 (Float64.finite (5 / 2)), ⟨⟨NumberKind.Float64NumberKind, false⟩⟩)]
      ⟨⟨NumberKind.Float64NumberKind, false⟩⟩ []).1.trans (by decide!),
   (C1_sum_count_exact NewDefaultConfig ⟨NumberKind.Float64NumberKind, false⟩
      [(Number.float64 (Float64.finite 1), ⟨⟨NumberKind.Float64NumberKind, false⟩⟩),
       (Number.float64 (Float64.finite (-1)), ⟨⟨NumberKind.Float64NumberKind, false⟩⟩),
       (Number.float64 (Float64.finite (5 / 2)), ⟨⟨NumberKind.Float64NumberKind, false⟩⟩)]
      ⟨⟨NumberKind.Float64NumberKind, false⟩⟩ []).2 [1, 5 / 2]
      (by simp [Number.kind]) (by decide!) (by decide!)
      (by intro h; exact absurd h (by decide))⟩

/-- C1, as stated, fails; all four runs are on an aggregator built for an integer instrument.
The single update 2^53 + 1 = 9007199254740993 is converted to the `float64` 2^53, and `Sum()`
returns 9007199254740992.  The updates 2^53, 1, 1 have the exact sum 2^53 + 2, itself a
`float64`, but each addition of 1 rounds back to 2^53, and `Sum()` returns 2^53.  The updates
2^62, 2^62 have the exact sum 2^63, which `Sum()` cannot return.  The single update 0.5, a
float under a record of float kind, is accepted and `Sum()` returns `int64(0.5) = 0`. -/
theorem C1_counterexample :
    (((New NewDefaultConfig ⟨NumberKind.Int64NumberKind, false⟩).updates
        [(Number.int64 9007199254740993, ⟨⟨NumberKind.Int64NumberKind, false⟩⟩)]).Collect
        ⟨⟨NumberKind.Int64NumberKind, false⟩⟩ []).1.Sum
      = Except.ok (Number.int64 9007199254740992) ∧
    (((New NewDefaultConfig ⟨NumberKind.Int64NumberKind, false⟩).updates
        [(Number.int64 9007199254740992, ⟨⟨NumberKind.Int64NumberKind, false⟩⟩),
         (Number.int64 1, ⟨⟨NumberKind.Int64NumberKind, false⟩⟩),
         (Number.int64 1, ⟨⟨NumberKind.Int64NumberKind, false⟩⟩)]).Collect
        ⟨⟨NumberKind.Int64NumberKind, false⟩⟩ []).1.Sum
      = Except.ok (Number.int64 9007199254740992) ∧
    (((New NewDefaultConfig ⟨NumberKind.Int64NumberKind, false⟩).updates
        [(Number.int64 4611686018427387904, ⟨⟨NumberKind.Int64NumberKind, false⟩⟩),
         (Number.int64 4611686018427387904, ⟨⟨NumberKind.Int64NumberKind, false⟩⟩)]).Collect
        ⟨⟨NumberKind.Int64NumberKind, false⟩⟩ []).1.Sum
      ≠ Except.ok (Number.int64 9223372036854775808) ∧
    (((New NewDefaultConfig ⟨NumberKind.Int64NumberKind, false⟩).updates
        [(Number.float64 (Float64.finite (1 / 2)),
          ⟨⟨NumberKind.Float64NumberKind, false⟩⟩)]).Collect
        ⟨⟨NumberKind.Int64NumberKind, false⟩⟩ []).1.Sum = Except.ok (Number.int64 0) := by
  refine ⟨by decide!, by decide!, by decide!, by decide!⟩

/-- C6 (amended): for two aggregators of the same configuration and instrument, each built by
`New`, fed any run of updates and checkpointed, `A.Merge(B)` returns normally and afterwards
`Count()` is `A.Count + B.Count`, for every configuration, hence regardless of bins and
collapsing; and `Sum()` stands for `A.Sum + B.Sum` (the values before the merge) whenever the
values have the instrument's kind, the sums held by the two checkpoints are finite, their exact
sum is a `float64` as it stands, and for an integer instrument the three sums fit `int64`. -/
theorem C6_merge_exact (cfg : Config) (desc d : Descriptor) (usA usB : List (Number × Record))
    (recA recB : Record) (expA expB : Batcher) :
    ∃ (M : Aggregator) (a b : Int),
      (((New cfg desc).updates usA).Collect recA expA).1.Merge
        (ExportAggregator.ddsketch (((New cfg desc).updates usB).Collect recB expB).1) d
        = Except.ok M ∧
      (((New cfg desc).updates usA).Collect recA expA).1.Count = Except.ok a ∧
      (((New cfg desc).updates usB).Collect recB expB).1.Count = Except.ok b ∧
      M.Count = Except.ok (a + b) ∧
      ∀ x y : ℚ,
        (∀ u ∈ usA, u.1.kind = desc.numberKind) → (∀ u ∈ usB, u.1.kind = desc.numberKind) →
        (((New cfg desc).updates usA).Collect recA expA).1.checkpoint.map DDSketch.Sum
          = some (Float64.finite x) →
        (((New cfg desc).updates usB).Collect recB expB).1.checkpoint.map DDSketch.Sum
          = some (Float64.finite y) →
        roundFloat64 (x + y) = Float64.finite (x + y) →
        (desc.numberKind = NumberKind.Int64NumberKind →
          inInt64Range x ∧ inInt64Range y ∧ inInt64Range (x + y)) →
        ∃ sa sb sm : Number,
          (((New cfg desc).updates usA).Collect recA expA).1.Sum = Except.ok sa ∧
          (((New cfg desc).updates usB).Collect recB expB).1.Sum = Except.ok sb ∧
          M.Sum = Except.ok sm ∧ sm.kind = desc.numberKind ∧
          sa.exact = some x ∧ sb.exact = some y ∧ sm.exact = some (x + y) := by
  rw [checkpoint_after_run, checkpoint_after_run]
  refine ⟨_, _, _, rfl, rfl, rfl, ?_, ?_⟩
  · simp [Aggregator.Count, DDSketch.Count, DDSketch.Merge]
  · intro x y hA hB hx hy hxy hrange
    simp only [Option.map_some', Option.some.injEq] at hx hy
    have hix : desc.numberKind = NumberKind.Int64NumberKind → ∃ z : Int, x = (z : ℚ) := by
      intro hk
      exact DDSketch.addAll_sum_isIntegral (NewDDSketch cfg) (acceptedValues usA)
        (fun w hw => ⟨0, by simpa [NewDDSketch] using (Float64.finite.inj hw).symm⟩)
        (acceptedValues_isIntegral usA (fun u hu => (hA u hu).trans hk)) x hx
    have hiy : desc.numberKind = NumberKind.Int64NumberKind → ∃ z : Int, y = (z : ℚ) := by
      intro hk
      exact DDSketch.addAll_sum_isIntegral (NewDDSketch cfg) (acceptedValues usB)
        (fun w hw => ⟨0, by simpa [NewDDSketch] using (Float64.finite.inj hw).symm⟩)
        (acceptedValues_isIntegral usB (fun u hu => (hB u hu).trans hk)) y hy
    have hm : (((NewDDSketch cfg).addAll (acceptedValues usA)).Merge
        ((NewDDSketch cfg).addAll (acceptedValues usB))).Sum = Float64.finite (x + y) := by
      simp only [DDSketch.Sum] at hx hy
      simp only [DDSketch.Sum, DDSketch.Merge, hx, hy, Float64.add]
      exact hxy
    refine ⟨_, _, _, rfl, rfl, rfl, ?_, ?_, ?_, ?_⟩
    · rw [Aggregator.toNumber_kind]
    · rw [hx]
      exact Aggregator.toNumber_exact _ _ (fun hk => ⟨hix hk, (hrange hk).1⟩)
    · rw [hy]
      exact Aggregator.toNumber_exact _ _ (fun hk => ⟨hiy hk, (hrange hk).2.1⟩)
    · rw [hm]
      apply Aggregator.toNumber_exact
      intro hk
      obtain ⟨za, hza⟩ := hix hk
      obtain ⟨zb, hzb⟩ := hiy hk
      exact ⟨⟨za + zb, by rw [hza, hzb]; push_cast; rfl⟩, (hrange hk).2.2⟩

/-- C3 (amended): `Collect` always returns normally; afterwards `checkpoint` is the old
`current`, `current` is a fresh empty sketch of the same configuration, configuration and kind
are unchanged; the call has no result, and the aggregator is handed to the batcher exactly when
the checkpoint's count is not zero. -/
theorem C3_collect_swaps (c : Aggregator) (rec : Record) (exp : Batcher) :
    (c.Collect rec exp).1.checkpoint = some c.current ∧
    (c.Collect rec exp).1.current = NewDDSketch c.cfg ∧
    (NewDDSketch c.cfg).config = c.cfg ∧ (NewDDSketch c.cfg).Count = 0 ∧
    (NewDDSketch c.cfg).Sum = Float64.finite 0 ∧ (NewDDSketch c.cfg).orderedBins = [] ∧
    (c.Collect rec exp).1.cfg = c.cfg ∧ (c.Collect rec exp).1.kind = c.kind ∧
    (c.Collect rec exp).2 =
      if c.current.Count ≠ 0 then exp ++ [(rec, (c.Collect rec exp).1)] else exp := by
  rw [Aggregator.Collect_fst]
  refine ⟨rfl, rfl, rfl, rfl, rfl, rfl, rfl, rfl, ?_⟩
  unfold Aggregator.Collect
  dsimp only
  split_ifs <;> rfl

/-- C3, as stated, fails: `Collect` on a new aggregator hands nothing to anyone (the call has no
result and the batcher is not called), although the checkpoint was taken. -/
theorem C3_counterexample :
    ((New NewDefaultConfig ⟨NumberKind.Float64NumberKind, false⟩).Collect
        ⟨⟨NumberKind.Float64NumberKind, false⟩⟩ []).2 = [] ∧
    ((New NewDefaultConfig ⟨NumberKind.Float64NumberKind, false⟩).Collect
        ⟨⟨NumberKind.Float64NumberKind, false⟩⟩ []).1.checkpoint
      = some (NewDDSketch NewDefaultConfig) := by
  constructor <;> rfl

/-- C4: whatever `Update` calls follow a `Collect`, the accessors `Sum`, `Count`, `Min`, `Max`
and `Quantile q` give what they gave right after the `Collect`; the checkpoint is still the
sketch that was current before the `Collect`. -/
theorem C4_checkpoint_isolation (c : Aggregator) (rec : Record) (exp : Batcher)
    (us : List (Number × Record)) :
    ((c.Collect rec exp).1.updates us).checkpoint = some c.current ∧
    ((c.Collect rec exp).1.updates us).Sum = (c.Collect rec exp).1.Sum ∧
    ((c.Collect rec exp).1.updates us).Count = (c.Collect rec exp).1.Count ∧
    ((c.Collect rec exp).1.updates us).Min = (c.Collect rec exp).1.Min ∧
    ((c.Collect rec exp).1.updates us).Max = (c.Collect rec exp).1.Max ∧
    ∀ q : ℚ, ((c.Collect rec exp).1.updates us).Quantile q = (c.Collect rec exp).1.Quantile q := by
  obtain ⟨_, h2, h3⟩ := (c.Collect rec exp).1.updates_frame us
  have hq : ∀ q : ℚ,
      ((c.Collect rec exp).1.updates us).Quantile q = (c.Collect rec exp).1.Quantile q := by
    intro q
    simp only [Aggregator.Quantile, Aggregator.toNumber, h2, h3]
  refine ⟨?_, ?_, ?_, hq 0, hq 1, hq⟩
  · rw [h3, Aggregator.Collect_fst]
  · simp only [Aggregator.Sum, Aggregator.toNumber, h2, h3]
  · simp only [Aggregator.Count, h3]

/-- C5: an `Update` with a negative value under a descriptor that does not allow negative values
leaves the aggregator exactly as it was; and an aggregator built with such a descriptor that
receives only `Update(-1.0)` reports `Count() == 0` after its checkpoint. -/
theorem C5_negative_rejected (c : Aggregator) (number : Number) (rec : Record)
    (hpolicy : rec.descriptor.alternate = false)
    (hneg : number.IsNegative rec.descriptor.numberKind = true) :
    c.Update number rec = c ∧
    ∀ (cfg : Config) (exp : Batcher),
      (((New cfg rec.descriptor).Update (Number.float64 (Float64.finite (-1))) rec).Collect
        rec exp).1.Count = Except.ok 0 := by
  constructor
  · simp [Aggregator.Update, hpolicy, hneg]
  · intro cfg exp
    have h : (New cfg rec.descriptor).Update (Number.float64 (Float64.finite (-1))) rec
        = New cfg rec.descriptor := by
      simp [Aggregator.Update, hpolicy, Number.IsNegative]
    rw [h, Aggregator.Collect_fst]
    rfl

/-- Witness of C5: the float instrument without negative values, value -1.0, on a new
aggregator. -/
theorem C5_negative_rejected_witness :
    (New NewDefaultConfig ⟨NumberKind.Float64NumberKind, false⟩).Update
        (Number.float64 (Float64.finite (-1)))
        ⟨⟨NumberKind.Float64NumberKind, false⟩⟩
      = New NewDefaultConfig ⟨NumberKind.Float64NumberKind, false⟩ ∧
    ∀ (cfg : Config) (exp : Batcher),
      (((New cfg ⟨NumberKind.Float64NumberKind, false⟩).Update
        (Number.float64 (Float64.finite (-1)))
        ⟨⟨NumberKind.Float64NumberKind, false⟩⟩).Collect
        ⟨⟨NumberKind.Float64NumberKind, false⟩⟩ exp).1.Count = Except.ok 0 :=
  C5_negative_rejected (New NewDefaultConfig ⟨NumberKind.Float64NumberKind, false⟩)
    (Number.float64 (Float64.finite (-1))) ⟨⟨NumberKind.Float64NumberKind, false⟩⟩ rfl
    (by decide!)

/-- Witness of C6: an integer instrument; A receives 3 and 4, B receives 5; the merged sum
is 12. -/
theorem C6_merge_exact_witness :
    ∃ (M : Aggregator) (a b : Int),
      (((New NewDefaultConfig ⟨NumberKind.Int64NumberKind, false⟩).updates
          [(Number.int64 3, ⟨⟨NumberKind.Int64NumberKind, false⟩⟩),
           (Number.int64 4, ⟨⟨NumberKind.Int64NumberKind, false⟩⟩)]).Collect
          ⟨⟨NumberKind.Int64NumberKind, false⟩⟩ []).1.Merge
        (ExportAggregator.ddsketch
          (((New NewDefaultConfig ⟨NumberKind.Int64NumberKind, false⟩).updates
            [(Number.int64 5, ⟨⟨NumberKind.Int64NumberKind, false⟩⟩)]).Collect
            ⟨⟨NumberKind.Int64NumberKind, false⟩⟩ []).1)
        ⟨NumberKind.Int64NumberKind, false⟩ = Except.ok M ∧
      (((New NewDefaultConfig ⟨NumberKind.Int64NumberKind, false⟩).updates
          [(Number.int64 3, ⟨⟨NumberKind.Int64NumberKind, false⟩⟩),
           (Number.int64 4, ⟨⟨NumberKind.Int64NumberKind, false⟩⟩)]).Collect
          ⟨⟨NumberKind.Int64NumberKind, false⟩⟩ []).1.Count = Except.ok a ∧
      (((New NewDefaultConfig ⟨NumberKind.Int64NumberKind, false⟩).updates
          [(Number.int64 5, ⟨⟨NumberKind.Int64NumberKind, false⟩⟩)]).Collect
          ⟨⟨NumberKind.Int64NumberKind, false⟩⟩ []).1.Count = Except.ok b ∧
      M.Count = Except.ok (a + b) ∧
      ∃ sa sb sm : Number,
        (((New NewDefaultConfig ⟨NumberKind.Int64NumberKind, false⟩).updates
            [(Number.int64 3, ⟨⟨NumberKind.Int64NumberKind, false⟩⟩),
             (Number.int64 4, ⟨⟨NumberKind.Int64NumberKind, false⟩⟩)]).Collect
            ⟨⟨NumberKind.Int64NumberKind, false⟩⟩ []).1.Sum = Except.ok sa ∧
        (((New NewDefaultConfig ⟨NumberKind.Int64NumberKind, false⟩).updates
            [(Number.int64 5, ⟨⟨NumberKind.Int64NumberKind, false⟩⟩)]).Collect
            ⟨⟨NumberKind.Int64NumberKind, false⟩⟩ []).1.Sum = Except.ok sb ∧
        M.Sum = Except.ok sm ∧ sm.kind = NumberKind.Int64NumberKind ∧
        sa.exact = some 7 ∧ sb.exact = some 5 ∧ sm.exact = some (7 + 5) :=
  match C6_merge_exact NewDefaultConfig ⟨NumberKind.Int64NumberKind, false⟩
    ⟨NumberKind.Int64NumberKind, false⟩
    [(Number.int64 3, ⟨⟨NumberKind.Int64NumberKind, false⟩⟩),
     (Number.int64 4, ⟨⟨NumberKind.Int64NumberKind, false⟩⟩)]
    [(Number.int64 5, ⟨⟨NumberKind.Int64NumberKind, false⟩⟩)]
    ⟨⟨NumberKind.Int64NumberKind, false⟩⟩ ⟨⟨NumberKind.Int64NumberKind, false⟩⟩ [] [] with
  | ⟨M, a, b, h1, h2, h3, h4, h5⟩ =>
    ⟨M, a, b, h1, h2, h3, h4,
      h5 7 5 (by simp [Number.kind]) (by simp [Number.kind]) (by decide!) (by decide!)
        (by decide!) (fun _ => by norm_num [inInt64Range])⟩

/-- C6, as stated, fails; the three merges are between aggregators built for an integer
instrument.  A received 2^53 and B received 1: `A.Sum` is 9007199254740992, `B.Sum` is 1, and
after `A.Merge(B)` the `float64` sum 2^53 + 1 has been rounded to 2^53, so `Sum()` is
9007199254740992 and not 9007199254740993.  A and B received 2^62 each: `A.Sum + B.Sum` is
2^63, which `Sum()` cannot return.  A and B received 0.5 each, a float under a record of float
kind: `A.Sum` and `B.Sum` are `int64(0.5) = 0`, and after the merge `Sum()` is 1. -/
theorem C6_counterexample :
    (((New NewDefaultConfig ⟨NumberKind.Int64NumberKind, false⟩).updates
        [(Number.int64 9007199254740992, ⟨⟨NumberKind.Int64NumberKind, false⟩⟩)]).Collect
        ⟨⟨NumberKind.Int64NumberKind, false⟩⟩ []).1.Sum
      = Except.ok (Number.int64 9007199254740992) ∧
    (((New NewDefaultConfig ⟨NumberKind.Int64NumberKind, false⟩).updates
        [(Number.int64 1, ⟨⟨NumberKind.Int64NumberKind, false⟩⟩)]).Collect
        ⟨⟨NumberKind.Int64NumberKind, false⟩⟩ []).1.Sum = Except.ok (Number.int64 1) ∧
    ((((New NewDefaultConfig ⟨NumberKind.Int64NumberKind, false⟩).updates
        [(Number.int64 9007199254740992, ⟨⟨NumberKind.Int64NumberKind, false⟩⟩)]).Collect
        ⟨⟨NumberKind.Int64NumberKind, false⟩⟩ []).1.Merge
      (ExportAggregator.ddsketch
        (((New NewDefaultConfig ⟨NumberKind.Int64NumberKind, false⟩).updates
          [(Number.int64 1, ⟨⟨NumberKind.Int64NumberKind, false⟩⟩)]).Collect
          ⟨⟨NumberKind.Int64NumberKind, false⟩⟩ []).1)
      ⟨NumberKind.Int64NumberKind, false⟩).bind Aggregator.Sum
      = Except.ok (Number.int64 9007199254740992) ∧
    ((((New NewDefaultConfig ⟨NumberKind.Int64NumberKind, false⟩).updates
        [(Number.int64 4611686018427387904, ⟨⟨NumberKind.Int64NumberKind, false⟩⟩)]).Collect
        ⟨⟨NumberKind.Int64NumberKind, false⟩⟩ []).1.Merge
      (ExportAggregator.ddsketch
        (((New NewDefaultConfig ⟨NumberKind.Int64NumberKind, false⟩).updates
          [(Number.int64 4611686018427387904, ⟨⟨NumberKind.Int64NumberKind, false⟩⟩)]).Collect
          ⟨⟨NumberKind.Int64NumberKind, false⟩⟩ []).1)
      ⟨NumberKind.Int64NumberKind, false⟩).bind Aggregator.Sum
      ≠ Except.ok (Number.int64 9223372036854775808) ∧
    (((New NewDefaultConfig ⟨NumberKind.Int64NumberKind, false⟩).updates
        [(Number.float64 (Float64.finite (1 / 2)),
          ⟨⟨NumberKind.Float64NumberKind, false⟩⟩)]).Collect
        ⟨⟨NumberKind.Int64NumberKind, false⟩⟩ []).1.Sum = Except.ok (Number.int64 0) ∧
    ((((New NewDefaultConfig ⟨NumberKind.Int64NumberKind, false⟩).updates
        [(Number.float64 (Float64.finite (1 / 2)),
          ⟨⟨NumberKind.Float64NumberKind, false⟩⟩)]).Collect
        ⟨⟨NumberKind.Int64NumberKind, false⟩⟩ []).1.Merge
      (ExportAggregator.ddsketch
        (((New NewDefaultConfig ⟨NumberKind.Int64NumberKind, false⟩).updates
          [(Number.float64 (Float64.finite (1 / 2)),
            ⟨⟨NumberKind.Float64NumberKind, false⟩⟩)]).Collect
          ⟨⟨NumberKind.Int64NumberKind, false⟩⟩ []).1)
      ⟨NumberKind.Int64NumberKind, false⟩).bind Aggregator.Sum
      = Except.ok (Number.int64 1) := by
  refine ⟨by decide!, by decide!, by decide!, by decide!, by decide!, by decide!⟩

/-- C7 (amended): an aggregator that was checkpointed with no accepted update has
`Count() == 0`, and `Quantile(q)` for every `q`, `Min` and `Max` return the InvalidQuantile
error. -/
theorem C7_empty_checkpoint (cfg : Config) (desc : Descriptor) (us : List (Number × Record))
    (rec : Record) (exp : Batcher) (hnone : ∀ u ∈ us, accepted u = false) :
    (((New cfg desc).updates us).Collect rec exp).1.Count = Except.ok 0 ∧
    (∀ q : ℚ, (((New cfg desc).updates us).Collect rec exp).1.Quantile q
      = Except.error Failure.ErrInvalidQuantile) ∧
    (((New cfg desc).updates us).Collect rec exp).1.Min
      = Except.error Failure.ErrInvalidQuantile ∧
    (((New cfg desc).updates us).Collect rec exp).1.Max
      = Except.error Failure.ErrInvalidQuantile := by
  have hacc : acceptedValues us = [] := by
    simp only [acceptedValues, List.map_eq_nil_iff, List.filter_eq_nil_iff]
    intro u hu
    simp [hnone u hu]
  rw [checkpoint_after_run, hacc]
  refine ⟨rfl, ?_, ?_, ?_⟩
  · intro q
    simp [Aggregator.Quantile, DDSketch.Quantile, DDSketch.addAll, NewDDSketch]
  · simp [Aggregator.Min, Aggregator.Quantile, DDSketch.Quantile, DDSketch.addAll, NewDDSketch]
  · simp [Aggregator.Max, Aggregator.Quantile, DDSketch.Quantile, DDSketch.addAll, NewDDSketch]

/-- Witness of C7: a float instrument without negative values that only receives -1.0. -/
theorem C7_empty_checkpoint_witness :
    (((New NewDefaultConfig ⟨NumberKind.Float64NumberKind, false⟩).updates
        [(Number.float64 (Float64.finite (-1)), ⟨⟨NumberKind.Float64NumberKind, false⟩⟩)]).Collect
        ⟨⟨NumberKind.Float64NumberKind, false⟩⟩ []).1.Count = Except.ok 0 ∧
    (∀ q : ℚ, (((New NewDefaultConfig ⟨NumberKind.Float64NumberKind, false⟩).updates
        [(Number.float64 (Float64.finite (-1)), ⟨⟨NumberKind.Float64NumberKind, false⟩⟩)]).Collect
        ⟨⟨NumberKind.Float64NumberKind, false⟩⟩ []).1.Quantile q
      = Except.error Failure.ErrInvalidQuantile) ∧
    (((New NewDefaultConfig ⟨NumberKind.Float64NumberKind, false⟩).updates
        [(Number.float64 (Float64.finite (-1)), ⟨⟨NumberKind.Float64NumberKind, false⟩⟩)]).Collect
        ⟨⟨NumberKind.Float64NumberKind, false⟩⟩ []).1.Min
      = Except.error Failure.ErrInvalidQuantile ∧
    (((New NewDefaultConfig ⟨NumberKind.Float64NumberKind, false⟩).updates
        [(Number.float64 (Float64.finite (-1)), ⟨⟨NumberKind.Float64NumberKind, false⟩⟩)]).Collect
        ⟨⟨NumberKind.Float64NumberKind, false⟩⟩ []).1.Max
      = Except.error Failure.ErrInvalidQuantile :=
  C7_empty_checkpoint NewDefaultConfig ⟨NumberKind.Float64NumberKind, false⟩
    [(Number.float64 (Float64.finite (-1)), ⟨⟨NumberKind.Float64NumberKind, false⟩⟩)]
    ⟨⟨NumberKind.Float64NumberKind, false⟩⟩ [] (by simp [accepted, Number.IsNegative])

/-- C7, as stated, fails: on a freshly constructed aggregator with no `Collect` yet the
checkpoint is nil, and `Count`, `Quantile`, `Min` and `Max` end in a nil-pointer dereference
instead of returning 0 or the InvalidQuantile error. -/
theorem C7_counterexample :
    (New NewDefaultConfig ⟨NumberKind.Float64NumberKind, false⟩).Count
      = Except.error Failure.nilPointerDereference ∧
    (New NewDefaultConfig ⟨NumberKind.Float64NumberKind, false⟩).Quantile (1 / 2)
      = Except.error Failure.nilPointerDereference ∧
    (New NewDefaultConfig ⟨NumberKind.Float64NumberKind, false⟩).Min
      = Except.error Failure.nilPointerDereference ∧
    (New NewDefaultConfig ⟨NumberKind.Float64NumberKind, false⟩).Max
      = Except.error Failure.nilPointerDereference :=
  ⟨rfl, rfl, rfl, rfl⟩

/-- C8 (the code at the failing input): `Merge` with an operand of another aggregator kind
returns normally, with the receiver unchanged; nothing tells the caller about the mismatch. -/
theorem C8_merge_mismatch_silent (c : Aggregator) (d : Descriptor) :
    c.Merge ExportAggregator.other d = Except.ok c := rfl

/-- C9 (amended): `New` does no validation: for every configuration and descriptor it returns
an aggregator that holds the configuration, has the descriptor's kind, an empty `current` built
from the configuration and a nil `checkpoint`. -/
theorem C9_new_total (cfg : Config) (desc : Descriptor) :
    (New cfg desc).cfg = cfg ∧ (New cfg desc).kind = desc.numberKind ∧
    (New cfg desc).current = NewDDSketch cfg ∧ (New cfg desc).checkpoint = none ∧
    (New cfg desc).current.config = cfg ∧ (New cfg desc).current.Count = 0 :=
  ⟨rfl, rfl, rfl, rfl, rfl, rfl⟩

/-- C9, as stated, fails: with `alpha = 0` (and with `maxBins = 0`) `New` returns an aggregator
that takes an update and reports it after `Collect`. -/
theorem C9_counterexample :
    (((New ⟨0, 2048, 1 / 1000000000⟩ ⟨NumberKind.Float64NumberKind, false⟩).Update
        (Number.float64 (Float64.finite 1)) ⟨⟨NumberKind.Float64NumberKind, false⟩⟩).Collect
        ⟨⟨NumberKind.Float64NumberKind, false⟩⟩ []).1.Count = Except.ok 1 ∧
    (((New ⟨1 / 100, 0, 1 / 1000000000⟩ ⟨NumberKind.Float64NumberKind, false⟩).Update
        (Number.float64 (Float64.finite 1)) ⟨⟨NumberKind.Float64NumberKind, false⟩⟩).Collect
        ⟨⟨NumberKind.Float64NumberKind, false⟩⟩ []).1.Count = Except.ok 1 := by
  constructor <;> decide!

/-- C10 (the code at the failing input): `Update(-1.0)` under a descriptor without negative
values on a new aggregator gives back the very same aggregator; `Update` has no result and
calls nothing, so the rejection leaves no trace. -/
theorem C10_rejection_silent :
    (New NewDefaultConfig ⟨NumberKind.Float64NumberKind, false⟩).Update
        (Number.float64 (Float64.finite (-1)))
        ⟨⟨NumberKind.Float64NumberKind, false⟩⟩
      = New NewDefaultConfig ⟨NumberKind.Float64NumberKind, false⟩ := by
  decide!
